import Mathlib

/-!
Shallow embedding of `src/nbnq.py`, a NetBIOS Name Service (NBNS) resolver.

The Python source is Python 2: its strings are byte strings, so every wire
"string" is modelled as `List Nat` whose elements are the byte values
(0..255 in every actual run).  `struct.pack`/`unpack` on `">H"`/`">I"` fields
become explicit big-endian arithmetic; fallible operations
(`struct.error` on a wrong-sized buffer, the `UnsupportedFeature` exception)
become `Except`; Python's `str.find` (returning -1 on a miss) and its slice
semantics (negative indices count from the end, out-of-range indices clamp)
are reproduced exactly by `pyFind` and `pySlice`.
-/

set_option maxRecDepth 10000

namespace NetBIOS

/-- Python slice `l[a:b]`: negative indices count from the end of the list,
and both bounds clamp into `[0, l.length]`. -/
def pySlice (l : List Nat) (a b : Int) : List Nat :=
  let n : Int := l.length
  let a2 : Int := if a < 0 then max (n + a) 0 else min a n
  let b2 : Int := if b < 0 then max (n + b) 0 else min b n
  (l.take b2.toNat).drop a2.toNat

/-- Index of the first NUL byte, or `none`: the spine of Python's
`data.find("\x00")`. -/
def findNul : List Nat → Option Nat
  | [] => none
  | c :: rest => if c = 0 then some 0 else (findNul rest).map (· + 1)

/-- Python `data.find("\x00")`: index of the first NUL byte, `-1` if absent. -/
def pyFind (l : List Nat) : Int :=
  match findNul l with
  | some i => (i : Int)
  | none => -1

/-- Big-endian 16-bit read of bytes `i`, `i+1` (out-of-range bytes read as 0,
which never happens on the in-range slices the parsers feed it). -/
def be16 (l : List Nat) (i : Nat) : Nat :=
  l.getD i 0 * 256 + l.getD (i + 1) 0

/-- Big-endian 32-bit read of bytes `i..i+3`. -/
def be32 (l : List Nat) (i : Nat) : Nat :=
  l.getD i 0 * 16777216 + l.getD (i + 1) 0 * 65536 +
    l.getD (i + 2) 0 * 256 + l.getD (i + 3) 0

/-- `struct.pack(">H", v)` for an in-range value (`struct` raises on
`v ≥ 2^16`; every call site in the source passes 16-bit values). -/
def pack16 (v : Nat) : List Nat :=
  [v / 256 % 256, v % 256]

-- Resource Record attributes (class constants of `NetBIOS`).
def RR_TYPE_A : Nat := 0x0001
def RR_TYPE_NS : Nat := 0x0002
def RR_TYPE_NULL : Nat := 0x000A
def RR_TYPE_NB : Nat := 0x0020
def RR_TYPE_NBSTAT : Nat := 0x0021
def CLASS_IN : Nat := 0x0001
def BCAST_REQ_MAX_ATTEMPTS : Nat := 3

/-- The two exception kinds that can escape the codec layer:
`NetBIOS.UnsupportedFeature` and `struct.error`. -/
inductive ProtoErr where
  | unsupportedFeature (msg : String)
  | structError (msg : String)
deriving DecidableEq, Repr

/-- The six fields `NameServiceHeader.response.read` sets on `self`. -/
structure NameServiceHeader where
  transaction_id : Nat
  flags : Nat
  qdcount : Nat
  ancount : Nat
  nscount : Nat
  arcount : Nat
deriving DecidableEq, Repr

/-- `NameServiceHeader.request.new`: packs six big-endian 16-bit fields;
`flags = 0x0110` if broadcast else `0x0100`. -/
def NameServiceHeader.request.new (transaction_id : Nat) (qdcount : Nat)
    (ancount : Nat) (nscount : Nat) (arcount : Nat) (broadcast : Bool) :
    List Nat :=
  let flags := if broadcast then 0x0110 else 0x0100
  pack16 transaction_id ++ pack16 flags ++ pack16 qdcount ++
    pack16 ancount ++ pack16 nscount ++ pack16 arcount

/-- `NameServiceHeader.response.read`: `unpack(">HHHHHH", data)` (a
`struct.error` unless `data` is exactly 12 bytes), then raises
`UnsupportedFeature` when bit 9 of the flags field is set. -/
def NameServiceHeader.response.read (data : List Nat) :
    Except ProtoErr NameServiceHeader :=
  if data.length = 12 then
    let h : NameServiceHeader :=
      { transaction_id := be16 data 0, flags := be16 data 2,
        qdcount := be16 data 4, ancount := be16 data 6,
        nscount := be16 data 8, arcount := be16 data 10 }
    if h.flags &&& (1 <<< 9) ≠ 0 then
      .error (.unsupportedFeature "Cannot handle truncated messages")
    else .ok h
  else .error (.structError "unpack requires a string argument of length 12")

/-- The per-character first-level encoding step of
`NameServiceQuery.request.encode`: each byte `ch` becomes the two characters
`chr((ord(ch) >> 4) + 0x41)` and `chr((ord(ch) & 0x0F) + 0x41)`. -/
def nibbleEncode : List Nat → List Nat
  | [] => []
  | ch :: rest => (ch / 16 + 0x41) :: (ch % 16 + 0x41) :: nibbleEncode rest

/-- Python `domain_name.split(".")` on a byte string (dot = byte 46). -/
def splitDot : List Nat → List (List Nat)
  | [] => [[]]
  | c :: rest =>
    if c = 46 then [] :: splitDot rest
    else
      match splitDot rest with
      | [] => [[c]]
      | h :: t => (c :: h) :: t

/-- The scope encoding of `NameServiceQuery.request.encode`: each label is
prefixed with `chr(len(label))`. -/
def labelEncode : List (List Nat) → List Nat
  | [] => []
  | label :: rest => label.length :: label ++ labelEncode rest

/-- `NameServiceQuery.request.encode`.  Note the source's `if len > 15 /
elif len < 15` chain: a name of exactly 15 characters falls through both
branches, so no `chr(type)` byte is appended to it. -/
def NameServiceQuery.request.encode (netbios_name : List Nat)
    (domain_name : List Nat) (ty : Nat) : List Nat :=
  let name :=
    if netbios_name.length > 15 then netbios_name.take 15 ++ [ty]
    else if netbios_name.length < 15 then
      netbios_name ++ List.replicate (15 - netbios_name.length) 0x20 ++ [ty]
    else netbios_name
  let encoded_name := nibbleEncode name
  let encoded_domain_name :=
    if domain_name = [] then [] else labelEncode (splitDot domain_name)
  0x20 :: (encoded_name ++ (encoded_domain_name ++ [0]))

/-- `NameServiceQuery.request.new`: header (`qdcount=1, broadcast=False`)
concatenated with the encoded name, `rr_type` and `CLASS_IN`. -/
def NameServiceQuery.request.new (transaction_id : Nat)
    (netbios_name : List Nat) (domain_name : List Nat) (ty : Nat)
    (rr_type : Nat) : List Nat :=
  let header := NameServiceHeader.request.new transaction_id 1 0 0 0 false
  let name := NameServiceQuery.request.encode netbios_name domain_name ty
  header ++ (name ++ pack16 rr_type ++ pack16 CLASS_IN)

/-- The two fields `NameServiceQuery.response.read` sets on `self`. -/
structure QueryResponse where
  header : NameServiceHeader
  resource_record : List Nat
deriving DecidableEq, Repr

/-- `NameServiceQuery.response.read`: header decoded from `data[0:12]`
(propagating its failures), `resource_record = data[12:]`. -/
def NameServiceQuery.response.read (data : List Nat) :
    Except ProtoErr QueryResponse :=
  match NameServiceHeader.response.read (pySlice data 0 12) with
  | .error e => .error e
  | .ok h => .ok { header := h, resource_record := pySlice data 12 data.length }

/-- The fields `NameServiceResourceRecord.__init__` sets on `self`. -/
structure NameServiceResourceRecord where
  name : List Nat
  rr_type : Nat
  rr_class : Nat
  ttl : Nat
  rdata_length : Nat
  rdata : List Nat
deriving DecidableEq, Repr

/-- `NameServiceResourceRecord.__init__` on `data.resource_record`:
`end_of_name = find("\x00")` (`-1` when absent), `name = data[0:end_of_name]`,
`unpack(">HHIH", data[end_of_name+1:end_of_name+11])` (a `struct.error`
unless that slice is exactly 10 bytes), `rdata = data[end_of_name+11:]`. -/
def NameServiceResourceRecord.init (resource_record : List Nat) :
    Except ProtoErr NameServiceResourceRecord :=
  let end_of_name : Int := pyFind resource_record
  let fields := pySlice resource_record (end_of_name + 1) (end_of_name + 11)
  if fields.length = 10 then
    .ok { name := pySlice resource_record 0 end_of_name,
          rr_type := be16 fields 0, rr_class := be16 fields 2,
          ttl := be32 fields 4, rdata_length := be16 fields 8,
          rdata := pySlice resource_record (end_of_name + 11)
                     resource_record.length }
  else .error (.structError "unpack requires a string argument of length 10")

/-- `"%d.%d.%d.%d" % unpack(">BBBB", addr_array[2:6])`. -/
def fmtIPv4 (a b c d : Nat) : String :=
  toString a ++ "." ++ toString b ++ "." ++ toString c ++ "." ++ toString d

/-- The `while (len(addr_array) >= 6)` loop of
`NameServiceResourceRecord.get_ip`: formats `addr_array[2:6]` of each
6-byte stride, then drops the stride. -/
def ipLoop : List Nat → List String
  | _a :: _b :: c :: d :: e :: f :: rest => fmtIPv4 c d e f :: ipLoop rest
  | _ => []

/-- `NameServiceResourceRecord.get_ip`: `None` unless `rr_type` is
`RR_TYPE_NB`, otherwise the addresses collected by the stride loop. -/
def NameServiceResourceRecord.get_ip (self : NameServiceResourceRecord) :
    Option (List String) :=
  if ¬(self.rr_type = RR_TYPE_NB) then none
  else some (ipLoop self.rdata)

/-- One `self._socket.recv(65535)` outcome seen by `NetBIOS._query`: either
`socket.timeout` or a received datagram. -/
inductive RecvEvent where
  | timeout
  | datagram (data : List Nat)
deriving DecidableEq, Repr

/-- How one attempt's inner `while (True)` receive loop ends. -/
inductive AttemptStep where
  | found (r : NameServiceResourceRecord)
  | timedOut
  | protoErr (e : ProtoErr)
  | noMoreEvents
deriving DecidableEq, Repr

/-- How `NetBIOS._query` as a whole ends. -/
inductive QueryResult where
  | found (r : NameServiceResourceRecord)
  | timeoutErr (msg : String)
  | fatal (e : ProtoErr)
  | noMoreEvents
deriving DecidableEq, Repr

/-- The inner `while (True)` loop of `NetBIOS._query`, driven by the list of
receive outcomes: parses each datagram, skips it (`continue`) on a
transaction-id mismatch or an `rr_type` mismatch, breaks on a match, and
lets a `socket.timeout` or any codec exception end the attempt.  Returns
the step outcome together with the receive outcomes not yet consumed. -/
def attemptLoop (transaction_id : Nat) (rr_type : Nat) :
    List RecvEvent → AttemptStep × List RecvEvent
  | [] => (.noMoreEvents, [])
  | .timeout :: rest => (.timedOut, rest)
  | .datagram d :: rest =>
    match NameServiceQuery.response.read d with
    | .error e => (.protoErr e, rest)
    | .ok response =>
      if ¬(response.header.transaction_id = transaction_id) then
        attemptLoop transaction_id rr_type rest
      else
        match NameServiceResourceRecord.init response.resource_record with
        | .error e => (.protoErr e, rest)
        | .ok resource_record =>
          if resource_record.rr_type = rr_type then (.found resource_record, rest)
          else attemptLoop transaction_id rr_type rest

/-- The `while (attempt <= BCAST_REQ_MAX_ATTEMPTS)` loop of `NetBIOS._query`.
Each iteration sends one request (counted in the second component; the
request body never influences the control flow), runs the receive loop, and
on `socket.timeout` either raises `Timeout` (when `attempt` equals the
maximum, 3) or increments `attempt` and retries. -/
def queryLoop (transaction_id : Nat) (rr_type : Nat) (netbios_name : String)
    (attempt : Nat) (events : List RecvEvent) : QueryResult × Nat :=
  if h : attempt ≤ BCAST_REQ_MAX_ATTEMPTS then
    match attemptLoop transaction_id rr_type events with
    | (.found r, _) => (.found r, 1)
    | (.protoErr e, _) => (.fatal e, 1)
    | (.noMoreEvents, _) => (.noMoreEvents, 1)
    | (.timedOut, rest) =>
      if attempt = BCAST_REQ_MAX_ATTEMPTS then
        (.timeoutErr ("Timed out. No response to request for " ++
          netbios_name ++ "."), 1)
      else
        let p := queryLoop transaction_id rr_type netbios_name (attempt + 1) rest
        (p.1, p.2 + 1)
  else (.noMoreEvents, 0)
termination_by 4 - attempt
decreasing_by simp [BCAST_REQ_MAX_ATTEMPTS] at h; omega

/-- `NetBIOS._query` for a fixed transaction id, abstracted over the list of
receive outcomes: starts at `attempt = 1`.  The result is paired with the
total number of `sendto` calls performed. -/
def query (transaction_id : Nat) (rr_type : Nat) (netbios_name : String)
    (events : List RecvEvent) : QueryResult × Nat :=
  queryLoop transaction_id rr_type netbios_name 1 events

/-! ### Helper lemmas -/

lemma nibbleEncode_length (l : List Nat) :
    (nibbleEncode l).length = 2 * l.length := by
  induction l with
  | nil => rfl
  | cons ch rest ih => simp [nibbleEncode, ih]; omega

lemma mem_nibbleEncode {c : Nat} {l : List Nat} (h : c ∈ nibbleEncode l) :
    ∃ ch ∈ l, c = ch / 16 + 0x41 ∨ c = ch % 16 + 0x41 := by
  induction l with
  | nil => simp [nibbleEncode] at h
  | cons ch rest ih =>
    simp only [nibbleEncode, List.mem_cons] at h
    rcases h with h | h | h
    · exact ⟨ch, List.mem_cons_self _ _, Or.inl h⟩
    · exact ⟨ch, List.mem_cons_self _ _, Or.inr h⟩
    · obtain ⟨ch', hm, hc⟩ := ih h
      exact ⟨ch', List.mem_cons_of_mem _ hm, hc⟩

lemma take_length_append (A B : List Nat) : (A ++ B).take A.length = A := by
  induction A with
  | nil => rfl
  | cons a A ih => simp [ih]

lemma getLast?_shape (x z : Nat) (A B : List Nat) :
    (x :: (A ++ (B ++ [z]))).getLast? = some z := by
  have h : x :: (A ++ (B ++ [z])) = (x :: (A ++ B)) ++ [z] := by simp
  rw [h, List.getLast?_concat]

lemma findNul_eq_none {l : List Nat} (h : ∀ b ∈ l, b ≠ 0) :
    findNul l = none := by
  induction l with
  | nil => rfl
  | cons c rest ih =>
    have hc : c ≠ 0 := h c (List.mem_cons_self _ _)
    simp only [findNul, if_neg hc, ih fun b hb => h b (List.mem_cons_of_mem _ hb)]
    rfl

lemma pySlice_zero_nonneg (l : List Nat) (b : Int) (hb : 0 ≤ b) :
    pySlice l 0 b = l.take b.toNat := by
  have hn : (0 : Int) ≤ (l.length : Int) := by omega
  simp only [pySlice]
  rw [if_neg (by omega), if_neg (by omega), min_eq_left hn]
  simp only [Int.toNat_zero, List.drop_zero]
  rcases le_or_lt b (l.length : Int) with hle | hlt
  · rw [min_eq_left hle]
  · rw [min_eq_right hlt.le, Int.toNat_natCast, List.take_length,
      List.take_of_length_le (by omega)]

lemma pySlice_drop (l : List Nat) (a : Int) (ha : 0 ≤ a) :
    pySlice l a (l.length : Int) = l.drop a.toNat := by
  simp only [pySlice]
  rw [if_neg (by omega), if_neg (by omega), min_self, Int.toNat_natCast,
    List.take_length]
  rcases le_or_lt a (l.length : Int) with hle | hlt
  · rw [min_eq_left hle]
  · rw [min_eq_right hlt.le, Int.toNat_natCast, List.drop_length,
      List.drop_eq_nil_of_le (by omega)]

lemma pySlice_neg_one (l : List Nat) : pySlice l 0 (-1) = l.dropLast := by
  have hn : (0 : Int) ≤ (l.length : Int) := by omega
  simp only [pySlice]
  rw [if_neg (by omega), if_pos (by omega), min_eq_left hn]
  simp only [Int.toNat_zero, List.drop_zero]
  rw [List.dropLast_eq_take]
  congr 1
  rcases Nat.eq_zero_or_pos l.length with h0 | hpos
  · simp [h0]
  · rw [max_eq_left (by omega)]
    omega

/-! ### Claims -/

/-- C9: for every netbios_name, domain_name and name_type byte, the output
of `NameServiceQuery.request.encode` begins with the byte `0x20` (the fixed
length-prefix byte preceding the nibble-encoded name) and ends with the
byte `0x00`. -/
theorem claim_C9 (netbios_name domain_name : List Nat) (ty : Nat) :
    (NameServiceQuery.request.encode netbios_name domain_name ty).head? =
      some 0x20 ∧
    (NameServiceQuery.request.encode netbios_name domain_name ty).getLast? =
      some 0 := by
  constructor
  · simp only [NameServiceQuery.request.encode, List.head?_cons]
  · simp only [NameServiceQuery.request.encode]
    exact getLast?_shape _ _ _ _

/-- C1 counterexample: the claim says `encode` with an empty domain yields
exactly 33 bytes for every name of length ≤ 15; in fact the empty name
yields 34 bytes (a `0x20` length-prefix byte precedes the 32 encoded
characters and the NUL), and a name of exactly 15 characters yields only
32 bytes (the type byte is never appended to it). -/
theorem claim_C1_counterexample :
    (NameServiceQuery.request.encode [] [] 0).length ≠ 33 ∧
    (NameServiceQuery.request.encode (List.replicate 15 65) [] 0).length ≠ 33 ∧
    (NameServiceQuery.request.encode [] [] 0).length = 34 ∧
    (NameServiceQuery.request.encode (List.replicate 15 65) [] 0).length = 32 := by
  decide

/-- C1 (amended): for every netbios_name of length at most 14 and every
name_type byte, with an empty domain_name, `NameServiceQuery.request.encode`
produces exactly 34 bytes — a `0x20` length-prefix byte, 32 nibble-encoded
characters each in `'A'..'P'`, and a single NUL byte. -/
theorem claim_C1 (netbios_name : List Nat) (ty : Nat)
    (hlen : netbios_name.length ≤ 14)
    (hbytes : ∀ b ∈ netbios_name, b < 256) (hty : ty < 256) :
    (NameServiceQuery.request.encode netbios_name [] ty).length = 34 ∧
    (NameServiceQuery.request.encode netbios_name [] ty).head? = some 0x20 ∧
    (NameServiceQuery.request.encode netbios_name [] ty).getLast? = some 0 ∧
    ∀ c ∈ ((NameServiceQuery.request.encode netbios_name [] ty).drop 1).take 32,
      0x41 ≤ c ∧ c ≤ 0x50 := by
  have hform : NameServiceQuery.request.encode netbios_name [] ty =
      0x20 :: (nibbleEncode (netbios_name ++
        List.replicate (15 - netbios_name.length) 0x20 ++ [ty]) ++ [0]) := by
    simp only [NameServiceQuery.request.encode]
    rw [if_neg (by omega), if_pos (by omega)]
    simp
  have hplen : (netbios_name ++ List.replicate (15 - netbios_name.length) 0x20
      ++ [ty]).length = 16 := by
    simp only [List.length_append, List.length_replicate, List.length_singleton]
    omega
  have hnlen : (nibbleEncode (netbios_name ++
      List.replicate (15 - netbios_name.length) 0x20 ++ [ty])).length = 32 := by
    rw [nibbleEncode_length, hplen]
  refine ⟨?_, ?_, ?_, ?_⟩
  · rw [hform]
    simp only [List.length_cons, List.length_append, hnlen,
      List.length_singleton]
    rfl
  · rw [hform]
    rfl
  · rw [hform]
    have h2 : (0x20 : Nat) :: (nibbleEncode (netbios_name ++
        List.replicate (15 - netbios_name.length) 0x20 ++ [ty]) ++ [0]) =
        (0x20 :: nibbleEncode (netbios_name ++
          List.replicate (15 - netbios_name.length) 0x20 ++ [ty])) ++ [0] := by
      simp
    rw [h2, List.getLast?_concat]
  · rw [hform]
    intro c hc
    simp only [List.drop_succ_cons, List.drop_zero] at hc
    have htake : ∀ A : List Nat, A.length = 32 → (A ++ [0]).take 32 = A := by
      intro A hA
      rw [← hA, take_length_append]
    rw [htake _ hnlen] at hc
    obtain ⟨ch, hch, hceq⟩ := mem_nibbleEncode hc
    have hch256 : ch < 256 := by
      simp only [List.mem_append, List.mem_replicate, List.mem_singleton] at hch
      rcases hch with (h | h) | h
      · exact hbytes ch h
      · omega
      · omega
    rcases hceq with rfl | rfl <;> omega

/-- C1 witness: the amended claim instantiated at the two-byte name
`"BC"` with name_type 7. -/
theorem claim_C1_witness :
    (([66, 67] : List Nat).length ≤ 14 ∧
      (∀ b ∈ ([66, 67] : List Nat), b < 256) ∧ (7 : Nat) < 256) ∧
    ((NameServiceQuery.request.encode [66, 67] [] 7).length = 34 ∧
      (NameServiceQuery.request.encode [66, 67] [] 7).head? = some 0x20 ∧
      (NameServiceQuery.request.encode [66, 67] [] 7).getLast? = some 0 ∧
      ∀ c ∈ ((NameServiceQuery.request.encode [66, 67] [] 7).drop 1).take 32,
        0x41 ≤ c ∧ c ≤ 0x50) :=
  ⟨⟨by decide, by decide, by decide⟩,
    claim_C1 [66, 67] 7 (by decide) (by decide) (by decide)⟩

/-- C2: the claim says encoding a 20-character name yields the same bytes
as encoding its first 15 characters with the same type byte, every name
being normalized to 15 characters plus a 16th type byte.  The code's
`if len > 15 / elif len < 15` chain skips the type byte for a name of
exactly 15 characters, so the two encodings differ: 34 bytes (16-byte
label) for the 20-character name against 32 bytes (15-byte label, no type
byte) for its 15-character prefix. -/
theorem claim_C2 :
    NameServiceQuery.request.encode (List.replicate 20 65) [] 0 ≠
      NameServiceQuery.request.encode (List.replicate 15 65) [] 0 ∧
    (NameServiceQuery.request.encode (List.replicate 20 65) [] 0).length = 34 ∧
    (NameServiceQuery.request.encode (List.replicate 15 65) [] 0).length = 32 := by
  decide

/-- C3 counterexample: the claim says `rdata` is exactly the
`rdata_length` bytes following the fixed fields; on a buffer whose
`rdata_length` field is 0 but which has a trailing byte, the parser stores
that trailing byte in `rdata` anyway (`rdata = data[end_of_name+11:]`
ignores `rdata_length`). -/
theorem claim_C3_counterexample :
    NameServiceResourceRecord.init [0, 0, 0, 0, 0, 0, 0, 0, 0, 0, 0, 7] =
      Except.ok { name := [], rr_type := 0, rr_class := 0, ttl := 0,
                  rdata_length := 0, rdata := [7] } ∧
    ([7] : List Nat).length ≠ 0 :=
  ⟨rfl, by decide⟩

/-- C3 (amended): the parser sets `rdata` to all bytes following the 10
fixed-field bytes after the NUL terminator, regardless of `rdata_length`;
only when the buffer extends exactly `rdata_length` bytes past the fixed
fields does `rdata` have length `rdata_length`. -/
theorem claim_C3 (buf : List Nat) (r : NameServiceResourceRecord)
    (h : NameServiceResourceRecord.init buf = Except.ok r) :
    r.rdata = buf.drop (pyFind buf + 11).toNat ∧
    (buf.length = (pyFind buf + 11).toNat + r.rdata_length →
      r.rdata.length = r.rdata_length) := by
  have hge : (0 : Int) ≤ pyFind buf + 11 := by
    unfold pyFind
    cases hfn : findNul buf <;> simp <;> omega
  simp only [NameServiceResourceRecord.init] at h
  split at h
  · injection h with h
    subst h
    refine ⟨pySlice_drop buf _ hge, fun hl => ?_⟩
    dsimp only at hl ⊢
    rw [pySlice_drop buf _ hge, List.length_drop]
    omega
  · cases h

/-- C3 witness: the amended claim instantiated at a buffer whose 2 trailing
bytes match its `rdata_length` field. -/
theorem claim_C3_witness :
    ({ name := [], rr_type := 0, rr_class := 0, ttl := 0, rdata_length := 2,
       rdata := [5, 6] } : NameServiceResourceRecord).rdata =
      ([0, 0, 0, 0, 0, 0, 0, 0, 0, 0, 2, 5, 6] : List Nat).drop
        (pyFind [0, 0, 0, 0, 0, 0, 0, 0, 0, 0, 2, 5, 6] + 11).toNat ∧
    (([0, 0, 0, 0, 0, 0, 0, 0, 0, 0, 2, 5, 6] : List Nat).length =
        (pyFind [0, 0, 0, 0, 0, 0, 0, 0, 0, 0, 2, 5, 6] + 11).toNat +
          ({ name := [], rr_type := 0, rr_class := 0, ttl := 0,
             rdata_length := 2, rdata := [5, 6] } :
            NameServiceResourceRecord).rdata_length →
      ({ name := [], rr_type := 0, rr_class := 0, ttl := 0, rdata_length := 2,
         rdata := [5, 6] } : NameServiceResourceRecord).rdata.length =
        ({ name := [], rr_type := 0, rr_class := 0, ttl := 0,
           rdata_length := 2, rdata := [5, 6] } :
          NameServiceResourceRecord).rdata_length) :=
  claim_C3 [0, 0, 0, 0, 0, 0, 0, 0, 0, 0, 2, 5, 6] _ rfl

/-- C10: on a buffer of length at least 11 containing no NUL byte,
`find` returns -1, so the parser succeeds with `name = data[0:-1]`
(all but the last byte) and the fixed fields decoded from the first 10
bytes, `rdata` being the bytes from offset 10 on. -/
theorem claim_C10 (buf : List Nat) (h11 : 11 ≤ buf.length)
    (hz : ∀ b ∈ buf, b ≠ 0) :
    NameServiceResourceRecord.init buf =
      Except.ok { name := buf.dropLast, rr_type := be16 (buf.take 10) 0,
                  rr_class := be16 (buf.take 10) 2, ttl := be32 (buf.take 10) 4,
                  rdata_length := be16 (buf.take 10) 8,
                  rdata := buf.drop 10 } := by
  have hfind : pyFind buf = -1 := by
    unfold pyFind
    rw [findNul_eq_none hz]
  simp only [NameServiceResourceRecord.init, hfind]
  have e1 : (-1 : Int) + 1 = 0 := by norm_num
  have e11 : (-1 : Int) + 11 = 10 := by norm_num
  rw [e1, e11, pySlice_zero_nonneg buf 10 (by norm_num),
    pySlice_neg_one, pySlice_drop buf 10 (by norm_num),
    show ((10 : Int)).toNat = 10 from rfl]
  have hlen10 : (buf.take 10).length = 10 := by
    rw [List.length_take]
    omega
  rw [if_pos hlen10]

/-- C10 witness: an 11-byte all-nonzero buffer parses with `name` all but
the last byte. -/
theorem claim_C10_witness :
    ((11 : Nat) ≤ ([1, 2, 3, 4, 5, 6, 7, 8, 9, 10, 11] : List Nat).length ∧
      ∀ b ∈ ([1, 2, 3, 4, 5, 6, 7, 8, 9, 10, 11] : List Nat), b ≠ 0) ∧
    NameServiceResourceRecord.init [1, 2, 3, 4, 5, 6, 7, 8, 9, 10, 11] =
      Except.ok
        { name := ([1, 2, 3, 4, 5, 6, 7, 8, 9, 10, 11] : List Nat).dropLast,
          rr_type := be16 (([1, 2, 3, 4, 5, 6, 7, 8, 9, 10,
            11] : List Nat).take 10) 0,
          rr_class := be16 (([1, 2, 3, 4, 5, 6, 7, 8, 9, 10,
            11] : List Nat).take 10) 2,
          ttl := be32 (([1, 2, 3, 4, 5, 6, 7, 8, 9, 10,
            11] : List Nat).take 10) 4,
          rdata_length := be16 (([1, 2, 3, 4, 5, 6, 7, 8, 9, 10,
            11] : List Nat).take 10) 8,
          rdata := ([1, 2, 3, 4, 5, 6, 7, 8, 9, 10,
            11] : List Nat).drop 10 } :=
  ⟨⟨by decide, by decide⟩,
    claim_C10 [1, 2, 3, 4, 5, 6, 7, 8, 9, 10, 11] (by decide) (by decide)⟩

/-- C5: for every 12-byte header buffer whose flags field has bit 9 (the
truncation bit) set, `NameServiceHeader.response.read` raises
`UnsupportedFeature`, regardless of all other field values. -/
theorem claim_C5 (data : List Nat) (hlen : data.length = 12)
    (hbit : be16 data 2 &&& (1 <<< 9) ≠ 0) :
    NameServiceHeader.response.read data =
      Except.error (.unsupportedFeature "Cannot handle truncated messages") := by
  simp only [NameServiceHeader.response.read]
  rw [if_pos hlen]
  dsimp only
  rw [if_pos hbit]

/-- C5 witness: a 12-byte header with flags `0x0200` (only the truncation
bit set) is rejected. -/
theorem claim_C5_witness :
    (([0, 0, 2, 0, 0, 0, 0, 0, 0, 0, 0, 0] : List Nat).length = 12 ∧
      be16 [0, 0, 2, 0, 0, 0, 0, 0, 0, 0, 0, 0] 2 &&& (1 <<< 9) ≠ 0) ∧
    NameServiceHeader.response.read [0, 0, 2, 0, 0, 0, 0, 0, 0, 0, 0, 0] =
      Except.error (.unsupportedFeature "Cannot handle truncated messages") :=
  ⟨⟨by decide, by decide⟩, claim_C5 _ (by decide) (by decide)⟩

/-- C6: decoding the header built by
`NameServiceHeader.request.new tid 1 0 0 0 false` succeeds and recovers
`transaction_id = tid`, `qdcount = 1` and zero for the other counts
(the non-broadcast flags value `0x0100` has bit 9 clear). -/
theorem claim_C6 (tid : Nat) (h : tid < 65536) :
    NameServiceHeader.response.read
        (NameServiceHeader.request.new tid 1 0 0 0 false) =
      Except.ok { transaction_id := tid, flags := 0x0100, qdcount := 1,
                  ancount := 0, nscount := 0, arcount := 0 } := by
  have hnew : NameServiceHeader.request.new tid 1 0 0 0 false =
      [tid / 256 % 256, tid % 256, 1, 0, 0, 1, 0, 0, 0, 0, 0, 0] := by
    simp [NameServiceHeader.request.new, pack16]
  rw [hnew]
  have hflags :
      be16 [tid / 256 % 256, tid % 256, 1, 0, 0, 1, 0, 0, 0, 0, 0, 0] 2 =
        256 := rfl
  simp only [NameServiceHeader.response.read]
  rw [if_pos (show ([tid / 256 % 256, tid % 256, 1, 0, 0, 1, 0, 0, 0, 0, 0,
    0] : List Nat).length = 12 from rfl)]
  dsimp only
  rw [hflags, if_neg (by decide)]
  have h0 :
      be16 [tid / 256 % 256, tid % 256, 1, 0, 0, 1, 0, 0, 0, 0, 0, 0] 0 =
        tid := by
    show tid / 256 % 256 * 256 + tid % 256 = tid
    omega
  rw [h0]
  rfl

/-- C6 witness: round-trip at `tid = 0x1234`. -/
theorem claim_C6_witness :
    (0x1234 : Nat) < 65536 ∧
    NameServiceHeader.response.read
        (NameServiceHeader.request.new 0x1234 1 0 0 0 false) =
      Except.ok { transaction_id := 0x1234, flags := 0x0100, qdcount := 1,
                  ancount := 0, nscount := 0, arcount := 0 } :=
  ⟨by decide, claim_C6 0x1234 (by decide)⟩

/-- C7: `get_ip` on an NB record walks `rdata` in 6-byte strides, formats
the trailing 4 bytes of each stride in input order, and silently drops a
trailing partial stride; the two concrete instances of the claim are the
12-byte rdata giving both addresses and the 8-byte rdata giving one. -/
theorem claim_C7 :
    (∀ r : NameServiceResourceRecord, r.rr_type = RR_TYPE_NB →
      r.get_ip = some (ipLoop r.rdata)) ∧
    (∀ a b c d e f : Nat, ∀ rest : List Nat,
      ipLoop (a :: b :: c :: d :: e :: f :: rest) =
        fmtIPv4 c d e f :: ipLoop rest) ∧
    (∀ l : List Nat, l.length < 6 → ipLoop l = []) ∧
    NameServiceResourceRecord.get_ip
        { name := [], rr_type := RR_TYPE_NB, rr_class := 1, ttl := 0,
          rdata_length := 12,
          rdata := [0, 0, 192, 168, 1, 1, 0, 0, 192, 168, 1, 2] } =
      some ["192.168.1.1", "192.168.1.2"] ∧
    NameServiceResourceRecord.get_ip
        { name := [], rr_type := RR_TYPE_NB, rr_class := 1, ttl := 0,
          rdata_length := 8, rdata := [0, 0, 192, 168, 1, 1, 9, 9] } =
      some ["192.168.1.1"] := by
  refine ⟨?_, ?_, ?_, ?_, ?_⟩
  · intro r h
    simp [NameServiceResourceRecord.get_ip, h]
  · intro a b c d e f rest
    rfl
  · intro l hl
    rcases l with _ | ⟨a, _ | ⟨b, _ | ⟨c, _ | ⟨d, _ | ⟨e, _ | ⟨f, rest⟩⟩⟩⟩⟩⟩
    · rfl
    · rfl
    · rfl
    · rfl
    · rfl
    · rfl
    · simp only [List.length_cons] at hl
      omega
  · rfl
  · rfl

/-- C7 witness: the hypothesis-bearing conjuncts of C7 instantiated at an
NB record with a 2-byte (partial) rdata. -/
theorem claim_C7_witness :
    (({ name := [], rr_type := RR_TYPE_NB, rr_class := 0, ttl := 0,
        rdata_length := 0, rdata := [9, 9] } :
        NameServiceResourceRecord).rr_type = RR_TYPE_NB ∧
      ([9, 9] : List Nat).length < 6) ∧
    ({ name := [], rr_type := RR_TYPE_NB, rr_class := 0, ttl := 0,
        rdata_length := 0, rdata := [9, 9] } :
        NameServiceResourceRecord).get_ip = some (ipLoop [9, 9]) ∧
    ipLoop [9, 9] = [] :=
  ⟨⟨rfl, by decide⟩, claim_C7.1 _ rfl, claim_C7.2.2.1 [9, 9] (by decide)⟩

/-- C4: when every receive attempt times out (any supply of at least 3
timeout outcomes), `_query` performs exactly 3 sends — never a 4th — and
raises the `Timeout` error whose message contains the queried name. -/
theorem claim_C4 (transaction_id rr_type : Nat) (netbios_name : String)
    (n : Nat) (h : 3 ≤ n) :
    query transaction_id rr_type netbios_name
        (List.replicate n RecvEvent.timeout) =
      (QueryResult.timeoutErr ("Timed out. No response to request for " ++
        netbios_name ++ "."), 3) ∧
    ∃ pre post : String,
      "Timed out. No response to request for " ++ netbios_name ++ "." =
        pre ++ netbios_name ++ post := by
  constructor
  · obtain ⟨k, rfl⟩ := Nat.exists_eq_add_of_le h
    have hrep : List.replicate (3 + k) RecvEvent.timeout =
        RecvEvent.timeout :: RecvEvent.timeout :: RecvEvent.timeout ::
          List.replicate k RecvEvent.timeout := by
      rw [List.replicate_add]
      rfl
    rw [query, hrep]
    simp [queryLoop, attemptLoop, BCAST_REQ_MAX_ATTEMPTS]
  · exact ⟨"Timed out. No response to request for ", ".", rfl⟩

/-- C4 witness: exactly 3 timeouts at a concrete transaction id, record
type and name. -/
theorem claim_C4_witness :
    (3 : Nat) ≤ 3 ∧
    (query 7 32 "HOST" (List.replicate 3 RecvEvent.timeout) =
        (QueryResult.timeoutErr ("Timed out. No response to request for " ++
          "HOST" ++ "."), 3) ∧
      ∃ pre post : String,
        "Timed out. No response to request for " ++ "HOST" ++ "." =
          pre ++ "HOST" ++ post) :=
  ⟨by decide, claim_C4 7 32 "HOST" 3 (by decide)⟩

/-- The inner receive loop of `_query` discards a datagram that parses but
mismatches — wrong transaction id, or right transaction id and wrong
`rr_type` — and carries on with the remaining receive outcomes. -/
lemma attemptLoop_skip (transaction_id rr_type : Nat) (d : List Nat)
    (evs : List RecvEvent) (resp : QueryResponse)
    (hresp : NameServiceQuery.response.read d = Except.ok resp)
    (hskip : resp.header.transaction_id = transaction_id →
      ∃ r, NameServiceResourceRecord.init resp.resource_record =
        Except.ok r ∧ r.rr_type ≠ rr_type) :
    attemptLoop transaction_id rr_type (RecvEvent.datagram d :: evs) =
      attemptLoop transaction_id rr_type evs := by
  simp only [attemptLoop, hresp]
  by_cases htid : resp.header.transaction_id = transaction_id
  · obtain ⟨r, hr, hne⟩ := hskip htid
    simp [htid, hr, hne]
  · simp [htid]

/-- C8: while awaiting a matching response, `_query` discards every
received response whose transaction id differs from the one sent, and
every response whose parsed `rr_type` differs from the requested record
type, and continues within the same attempt: the whole query — its result
and its total number of sends — is unchanged by such a datagram. -/
theorem claim_C8 (transaction_id rr_type : Nat) (netbios_name : String)
    (d : List Nat) (evs : List RecvEvent) (resp : QueryResponse)
    (hresp : NameServiceQuery.response.read d = Except.ok resp)
    (hskip : resp.header.transaction_id = transaction_id →
      ∃ r, NameServiceResourceRecord.init resp.resource_record =
        Except.ok r ∧ r.rr_type ≠ rr_type) :
    query transaction_id rr_type netbios_name
        (RecvEvent.datagram d :: evs) =
      query transaction_id rr_type netbios_name evs := by
  have hAL := attemptLoop_skip transaction_id rr_type d evs resp hresp hskip
  unfold query
  rw [queryLoop.eq_def]
  conv_rhs => rw [queryLoop.eq_def]
  rw [hAL]

/-- C8 witness: a well-formed 12-byte datagram carrying transaction id
`0xAABB` is discarded by a query whose transaction id is 1. -/
theorem claim_C8_witness :
    NameServiceQuery.response.read [170, 187, 1, 0, 0, 0, 0, 0, 0, 0, 0, 0] =
      Except.ok { header := { transaction_id := 0xAABB, flags := 0x0100,
                              qdcount := 0, ancount := 0, nscount := 0,
                              arcount := 0 },
                  resource_record := [] } ∧
    query 1 32 "W"
        [RecvEvent.datagram [170, 187, 1, 0, 0, 0, 0, 0, 0, 0, 0, 0]] =
      query 1 32 "W" [] :=
  ⟨rfl,
    claim_C8 1 32 "W" [170, 187, 1, 0, 0, 0, 0, 0, 0, 0, 0, 0] []
      { header := { transaction_id := 0xAABB, flags := 0x0100, qdcount := 0,
                    ancount := 0, nscount := 0, arcount := 0 },
        resource_record := [] }
      rfl (fun h => absurd h (by decide))⟩

end NetBIOS
